import Mathlib

/-!
Shallow embedding of the ceiling-extrapolation core of
src/neural_nlp/benchmarks/ceiling.py.

Python floats are modelled by exact rationals; numpy routines used by the
source (mean, median, percentile, std, diff, where/min) are embedded
following their documented elementwise/sorting semantics.  External
collaborators that the source only calls (scipy curve_fit, np.exp, the
metric, brainio merge of an empty list) are passed in as parameters or
modelled from the specification, as noted at each definition.
-/

set_option maxRecDepth 20000

namespace CeilingPy

/-- Arithmetic mean of a list of values (np.mean). On the empty list this
yields 0 (the source never takes a mean of an empty draw). -/
def meanQ (xs : List ℚ) : ℚ := xs.sum / xs.length

/-- Insert a value into an ascending-sorted list, keeping it sorted. -/
def insertAsc (x : ℚ) : List ℚ → List ℚ
  | [] => [x]
  | y :: ys => if x ≤ y then x :: y :: ys else y :: insertAsc x ys

/-- Ascending insertion sort (np.sort semantics). -/
def sortQ (xs : List ℚ) : List ℚ := xs.foldr insertAsc []

/-- np.median: sort ascending; odd length takes the middle element, even
length averages the two middle elements. -/
def medianQ (xs : List ℚ) : ℚ :=
  let s := sortQ xs
  let n := s.length
  if n % 2 = 1 then s.getD (n / 2) 0
  else (s.getD (n / 2 - 1) 0 + s.getD (n / 2) 0) / 2

/-- np.percentile with the default linear interpolation: position
q/100*(n-1) into the ascending sort, interpolating between the two
neighbouring order statistics.  (np.nanpercentile coincides with this on
NaN-free data, which is what the source feeds it.) -/
def percentileQ (xs : List ℚ) (q : ℚ) : ℚ :=
  let s := sortQ xs
  let n := s.length
  if n = 0 then 0
  else
    let pos : ℚ := q * (n - 1) / 100
    let i : ℕ := pos.floor.toNat
    let lo := s.getD i 0
    let hi := if i + 1 < n then s.getD (i + 1) 0 else lo
    lo + (pos - (i : ℚ)) * (hi - lo)

/-- Population variance (ddof = 0), the xarray/numpy default used by
scores.std in the source. -/
def varianceQ (xs : List ℚ) : ℚ := meanQ (xs.map (fun x => (x - meanQ xs) ^ 2))

/-- Population standard deviation.  The square root is `Rat.sqrt`, exact on
perfect squares; every concrete evaluation in this development has a
perfect-square variance. -/
def stdQ (xs : List ℚ) : ℚ := Rat.sqrt (varianceQ xs)

/-- ci_error (ceiling.py lines 218-222), embedded with the source's own
operator precedence: the upper percentile rank is
100 * 1 - ((1 - confidence) / 2), i.e. 100 - (1-confidence)/2. -/
def ciError (samples : List ℚ) (center : ℚ) (confidence : ℚ := 95 / 100) : ℚ × ℚ :=
  let low := 100 * (1 - confidence) / 2
  let high := 100 * 1 - ((1 - confidence) / 2)
  let confidenceBelow := percentileQ samples low
  let confidenceAbove := percentileQ samples high
  (center - confidenceBelow, confidenceAbove - center)

/-- The saturating growth curve v (ceiling.py lines 15-16):
v0 * (1 - exp(-x / tau0)).  np.exp is an external floating-point routine
and is passed in as the parameter npExp. -/
def v (npExp : ℚ → ℚ) (x v0 tau0 : ℚ) : ℚ := v0 * (1 - npExp (-x / tau0))

/-! ## numpy RandomState model

The source seeds numpy's Mersenne Twister with RandomState(0)
(ceiling.py line 167) and draws bootstrap samples with
rng.choice(choices, size=len(choices), replace=True).  The claims depend on
the generator being deterministic and locally seeded, not on its
distribution, so the generator is modelled by a 64-bit linear congruential
step threaded through the computation in the same order as the source's
single rng object. -/

/-- Deterministic pseudo-random generator state (models numpy RandomState). -/
structure RandomState where
  state : ℕ
deriving DecidableEq

/-- RandomState(seed). -/
def RandomState.seeded (seed : ℕ) : RandomState := ⟨seed⟩

/-- One generator step: returns an index below bound (bound assumed
positive) and the advanced state. -/
def RandomState.next (r : RandomState) (bound : ℕ) : ℕ × RandomState :=
  let s := (6364136223846793005 * r.state + 1442695040888963407) % (2 ^ 64)
  ((s / 2 ^ 33) % bound, ⟨s⟩)

/-- rng.choice(choices, size=len(choices), replace=True): draw
choices.length elements with replacement. -/
def RandomState.choice (r : RandomState) (choices : List ℚ) : List ℚ × RandomState :=
  (List.range choices.length).foldl
    (fun (acc : List ℚ × RandomState) _ =>
      let p := acc.2.next choices.length
      (acc.1 ++ [choices.getD p.1 0], p.2))
    ([], r)

/-! ## Assemblies, metrics and Scores

The LabeledTensor ("assembly") collaborator is external; the holdout loop
only reads the subject label of each measurement row and filters rows by
boolean masks over those labels, so an assembly is modelled as rows of
(subject label, opaque payload).  The Metric collaborator maps a pool and
a held-out assembly to a Score or raises; its Score carries a
center/error aggregation plus a raw provenance table (spec sections 3 and
6: the pre-aggregation per-split score table, axes neuroid x split). -/

/-- An assembly: one row per neuroid, carrying the row's subject label
(assembly[subject_column].values) and an opaque measurement payload. -/
structure Assembly (α : Type) where
  rows : List (String × α)
deriving DecidableEq

/-- Boolean-mask filtering of an assembly along the neuroid axis by a
predicate on the subject label (assembly[{'neuroid': [...]}]). -/
def Assembly.filterSubj (a : Assembly α) (p : String → Bool) : Assembly α :=
  ⟨a.rows.filter (fun r => p r.1)⟩

/-- set(assembly[subject_column].values): the distinct subject labels.
Python set iteration order is unspecified; first-occurrence order is used
(the claims are invariant under enumeration order). -/
def subjectsOf (a : Assembly α) : List String := (a.rows.map Prod.fst).dedup

/-- A raw (pre-aggregation) score table: its axis names plus per-neuroid
per-split values. -/
structure RawTable where
  dims : List String
  values : List (String × List ℚ)
deriving DecidableEq

/-- A Score returned by the metric: aggregation axis entries center and
error, plus the attached raw provenance table. -/
structure MetricScore where
  center : ℚ
  error : ℚ
  raw : RawTable
deriving DecidableEq

/-- Conditions a metric call can raise, as distinguished by the source's
except clauses: NoOverlapException (ceiling.py line 254), ValueError
(whose message may or may not contain "Found array with"), KeyError
(uncaught by the holdout loop, message-matched in collect), and any other
exception. -/
inductive MetricErr where
  | noOverlap
  | valueError (msg : String)
  | keyError (msg : String)
  | otherError (msg : String)
deriving DecidableEq

/-- A metric: a pool assembly and a held-out assembly give a Score or an
exception. -/
def Metric (α : Type) := Assembly α → Assembly α → Except MetricErr MetricScore

/-- Python's substring test, "Found array with" in str(e). -/
def foundArrayWithMsg : String := "Found array with"

/-- if needle in haystack, via splitOn. -/
def strContains (haystack needle : String) : Bool :=
  (haystack.splitOn needle).length ≥ 2

/-! ## HoldoutSubjectCeiling (ceiling.py lines 19-61) -/

/-- Errors that can escape HoldoutSubjectCeiling.__call__: a re-raised
ValueError, a KeyError or other exception propagating uncaught through the
loop, or the failure of Score.merge on zero collected scores (the
concatenation of an empty list is undefined and raises; spec section
4.1). -/
inductive HoldoutErr where
  | valueError (msg : String)
  | keyError (msg : String)
  | otherError (msg : String)
  | mergeEmpty
deriving DecidableEq

/-- subject_assembly: the rows whose subject label equals the held-out
subject. -/
def heldoutOf (a : Assembly α) (subject : String) : Assembly α :=
  a.filterSubj (fun s => s == subject)

/-- pool_assembly: subject_pool = subjects - {subject}, then the rows whose
label is in the pool. -/
def poolOf (a : Assembly α) (subject : String) : Assembly α :=
  let subjectPool := (subjectsOf a).filter (fun x => x ≠ subject)
  a.filterSubj (fun s => subjectPool.contains s)

/-- The metric outcome for one held-out subject. -/
def outcomeOf (metric : Metric α) (a : Assembly α) (subject : String) :
    Except MetricErr MetricScore :=
  metric (poolOf a subject) (heldoutOf a subject)

/-- Whether an exception is swallowed by the holdout loop: NoOverlapException
always, ValueError when its message contains "Found array with". -/
def isSkippableErr : MetricErr → Bool
  | .noOverlap => true
  | .valueError msg => strContains msg foundArrayWithMsg
  | .keyError _ => false
  | .otherError _ => false

/-- How a non-swallowed metric exception escapes the holdout loop. -/
def fatalOf : MetricErr → Option HoldoutErr
  | .noOverlap => none
  | .valueError msg =>
      if strContains msg foundArrayWithMsg then none else some (.valueError msg)
  | .keyError msg => some (.keyError msg)
  | .otherError msg => some (.otherError msg)

/-- The per-subject try/except loop of HoldoutSubjectCeiling.__call__
(ceiling.py lines 28-49): each subject is scored on pool vs heldout;
NoOverlapException and "Found array with" ValueErrors skip the subject,
anything else aborts the loop. Successful scores are tagged with the
subject identity (expand_dims + setitem). -/
def collectSubjectScores (metric : Metric α) (a : Assembly α) :
    List String → Except HoldoutErr (List (String × MetricScore))
  | [] => .ok []
  | subject :: rest =>
    match outcomeOf metric a subject with
    | .ok score => (collectSubjectScores metric a rest).map (fun l => (subject, score) :: l)
    | .error e =>
      match fatalOf e with
      | none => collectSubjectScores metric a rest
      | some he => .error he

/-- The Score produced by HoldoutSubjectCeiling: the collapsed
center/error aggregation, the merged per-subject score table (subject x
aggregation) it was collapsed from, and the merged raw provenance
(apply_aggregate keeps the raw values attached to the merged scores:
the per-subject metric raws concatenated along the neuroid axis). -/
structure HoldoutScore where
  center : ℚ
  error : ℚ
  subjectScores : List (String × ℚ × ℚ)
  raw : RawTable
deriving DecidableEq

/-- HoldoutSubjectCeiling.__call__ (ceiling.py lines 24-55): loop over the
subjects, Score.merge the collected per-subject scores (raising on an
empty collection), compute error as the standard deviation of the
per-subject center values, collapse center (and error) to the mean across
the subject axis, then overwrite the error row with the pre-collapse
standard deviation. -/
def holdoutCall (metric : Metric α) (a : Assembly α) : Except HoldoutErr HoldoutScore :=
  match collectSubjectScores metric a (subjectsOf a) with
  | .error e => .error e
  | .ok [] => .error .mergeEmpty
  | .ok (s₀ :: rest) =>
    let scores := s₀ :: rest
    let centers := scores.map (fun p => p.2.center)
    let error := stdQ centers
    let aggCenter := meanQ centers
    let _aggErrorOverwritten := meanQ (scores.map (fun p => p.2.error))
    .ok { center := aggCenter
          error := error
          subjectScores := scores.map (fun p => (p.1, p.2.center, p.2.error))
          raw := { dims := s₀.2.raw.dims
                   values := scores.foldr (fun p acc => p.2.raw.values ++ acc) [] } }

/-- The kept (subject, score) pair of one subject, if its metric call
succeeds. -/
def successOf (metric : Metric α) (a : Assembly α) (subject : String) :
    Option (String × MetricScore) :=
  match outcomeOf metric a subject with
  | .ok score => some (subject, score)
  | .error _ => none

/-- Spec-side description of the subjects the loop keeps: those whose
metric call succeeds, in iteration order, paired with their scores. -/
def successes (metric : Metric α) (a : Assembly α) : List (String × MetricScore) :=
  (subjectsOf a).filterMap (successOf metric a)

/-- Whether a subject's metric outcome does not abort the loop (it either
succeeds or raises a swallowed condition). -/
def nonFatalB (metric : Metric α) (a : Assembly α) (subject : String) : Bool :=
  match outcomeOf metric a subject with
  | .ok _ => true
  | .error e => (fatalOf e).isNone

/-! ## Combinatorial subsampler and collect (ceiling.py lines 77-113) -/

/-- build_subject_subsamples (ceiling.py lines 104-105):
tuple(range(2, len(subjects) + 1)). -/
def buildSubjectSubsamples (subjects : List String) : List ℕ :=
  List.range' 2 (subjects.length - 1)

/-- itertools.combinations(subjects, num_subjects): every subset of the
given size, each listed once.  Enumeration order is unspecified by the
spec (section 4.2); the order of List.sublistsLen is used. -/
def subjectCombinations (subjects : List String) (numSubjects : ℕ) : List (List String) :=
  List.sublistsLen numSubjects subjects

/-- iterate_subsets (ceiling.py lines 107-113): for each combination,
the selection descriptor and the assembly filtered to rows whose subject
is in the combination. -/
def iterateSubsets (a : Assembly α) (numSubjects : ℕ) :
    List (List String × Assembly α) :=
  (subjectCombinations (subjectsOf a) numSubjects).map
    (fun subSubjects => (subSubjects, a.filterSubj (fun s => subSubjects.contains s)))

/-- str(selection): the stringified subset recorded as the sub_subject
coordinate.  The exact rendering is irrelevant to the claims. -/
def strOfSubset (sel : List String) : String := String.intercalate ", " sel

/-- One row of the long table accumulated by collect: the appended object
is score.raw (ceiling.py line 93) after the score was tagged with
num_subjects and the stringified subset via expand_dims, which prepends
one axis per tag to the raw table as well. -/
structure CollectEntry where
  numSubjects : ℕ
  subSubject : String
  rawDims : List String
  rawValues : List (String × List ℚ)
deriving DecidableEq

/-- The (num_subjects, selection, filtered assembly) work items of
collect's two nested loops, in loop order. -/
def collectTasks (a : Assembly α) : List (ℕ × List String × Assembly α) :=
  (buildSubjectSubsamples (subjectsOf a)).flatMap
    (fun numSubjects => (iterateSubsets a numSubjects).map
      (fun p => (numSubjects, p.1, p.2)))

/-- Tagging of one holdout Score inside collect (ceiling.py lines 87-93):
expand_dims('num_subjects') then expand_dims('sub_subject'), each of which
prepends the new axis to the raw table, then append score.raw. -/
def mkCollectEntry (numSubjects : ℕ) (sel : List String) (score : HoldoutScore) :
    CollectEntry :=
  { numSubjects := numSubjects
    subSubject := strOfSubset sel
    rawDims := "sub_subject" :: "num_subjects" :: score.raw.dims
    rawValues := score.raw.values }

/-- The try/except body of collect's loops (ceiling.py lines 85-99): run
the holdout ceiling on the filtered assembly, append the tagged raw; a
KeyError rendering exactly "'z'" is swallowed and the subset skipped, any
other error propagates. -/
def collectGo (metric : Metric α) :
    List (ℕ × List String × Assembly α) → Except HoldoutErr (List CollectEntry)
  | [] => .ok []
  | (numSubjects, sel, subAssembly) :: rest =>
    match holdoutCall metric subAssembly with
    | .ok score =>
        (collectGo metric rest).map (fun l => mkCollectEntry numSubjects sel score :: l)
    | .error (.keyError msg) =>
        if msg = "'z'" then collectGo metric rest else .error (.keyError msg)
    | .error e => .error e

/-- ExtrapolationCeiling.collect (ceiling.py lines 77-102) up to the final
Score.merge: the accumulated long table, one entry per surviving
(num_subjects, subset) pair.  The optional post-processing hook is applied
by the caller afterwards and is external to the core. -/
def collectEntries (metric : Metric α) (a : Assembly α) :
    Except HoldoutErr (List CollectEntry) :=
  collectGo metric (collectTasks a)

/-! ## Bootstrap extrapolation (ceiling.py lines 118-210)

extrapolate_neuroid works on one measurement unit's slice of the long
table: after isel(neuroid=[i]).squeeze() and sel(num_subjects=k) followed
by dropna('sub_subject'), the remaining dims are {sub_subject, split}
(the assertion at ceiling.py line 175).  A unit's table is therefore
modelled per num_subjects level as the per-subset split-value lists, with
none marking an all-NaN subset slice that dropna removes. -/

/-- One unit's collected score table. -/
structure NeuroidCeilingTable where
  cells : List (ℕ × List (Option (List ℚ)))
deriving DecidableEq

/-- sorted(set(ceilings['num_subjects'].values)) (ceiling.py line 166). -/
def numSubjectsLevels (t : NeuroidCeilingTable) : List ℕ :=
  ((t.cells.map Prod.fst).dedup.foldr
    (fun (x : ℕ) acc => acc.orderedInsert (· ≤ ·) x) [])

/-- sel(num_subjects=k), dropna('sub_subject'), then values.flatten()
(ceiling.py lines 172-177): the (subset x split) values of one level,
flattened subset-major. -/
def levelChoices (t : NeuroidCeilingTable) (k : ℕ) : List ℚ :=
  (((t.cells.filter (fun c => c.1 == k)).flatMap Prod.snd).filterMap id).flatten

/-- One bootstrap round's per-level means (ceiling.py lines 170-179): for
each num_subjects level, draw len(choices) values with replacement from
the flattened choices and take the mean, threading the generator. -/
def drawRound (t : NeuroidCeilingTable) (ks : List ℕ) (rng : RandomState) :
    List ℚ × RandomState :=
  ks.foldl
    (fun (acc : List ℚ × RandomState) k =>
      let p := acc.2.choice (levelChoices t k)
      (acc.1 ++ [meanQ p.1], p.2))
    ([], rng)

/-- The scipy curve_fit collaborator (ceiling.py lines 206-210): a bounded
nonlinear least-squares routine mapping the (num_subjects, bootstrapped
mean) pairs to fitted (v0, tau0) parameters, or failing to converge
(RuntimeError, skipped per round).  It is external floating-point code and
is passed in as a function. -/
def FitFn := List ℕ → List ℚ → Option (ℚ × ℚ)

/-- The bootstrap loop of extrapolate_neuroid (ceiling.py lines 167-187):
RandomState(0) is seeded at the start, then num_bootstraps rounds each
draw per-level means and fit the growth curve; rounds whose fit fails are
skipped, successful rounds contribute (bootstrap index, params). -/
def runBootstraps (fit : FitFn) (numBootstraps : ℕ) (t : NeuroidCeilingTable) :
    List (ℕ × ℚ × ℚ) :=
  ((List.range numBootstraps).foldl
    (fun (acc : List (ℕ × ℚ × ℚ) × RandomState) b =>
      let p := drawRound t (numSubjectsLevels t) acc.2
      match fit (numSubjectsLevels t) p.1 with
      | some params => (acc.1 ++ [(b, params)], p.2)
      | none => (acc.1, p.2))
    ([], RandomState.seeded 0)).1

/-- The fixed asymptote threshold (ceiling.py line 190). -/
def asymptoteThreshold : ℚ := 5 / 10000

/-- Each successful round's fitted curve evaluated on the integer grid
x = 0..999 (ceiling.py lines 191-192). -/
def curveYs (npExp : ℚ → ℚ) (params : List (ℕ × ℚ × ℚ)) : List (List ℚ) :=
  params.map (fun p => (List.range 1000).map (fun (x : ℕ) => v npExp (x : ℚ) p.2.1 p.2.2))

/-- The per-x median across rounds (ceiling.py line 193). -/
def medianCurve (ys : List (List ℚ)) : List ℚ :=
  (List.range 1000).map (fun i => medianQ (ys.map (fun row => row.getD i 0)))

/-- The forward difference of the median curve at x (np.diff). -/
def medianDiff (m : List ℚ) (i : ℕ) : ℚ := m.getD (i + 1) 0 - m.getD i 0

/-- np.diff(median_ys) (ceiling.py line 194): 999 forward differences. -/
def forwardDiffs (m : List ℚ) : List ℚ := (List.range 999).map (medianDiff m)

/-- Index of the first element satisfying p, if any: models
np.where(p)[0].min(), whose minimum over the ascending index array is the
first hit. -/
def firstWhere (p : α → Bool) : List α → Option ℕ
  | [] => none
  | x :: xs => if p x then some 0 else (firstWhere p xs).map (· + 1)

/-- end_x (ceiling.py line 195): the first x whose forward difference of
the median curve is below the threshold. None models the empty np.where
result, on which .min() raises ValueError. -/
def endXOf (diffs : List ℚ) : Option ℕ :=
  firstWhere (fun d => d < asymptoteThreshold) diffs

/-- Failures of the per-unit extrapolation, as seen by extrapolate's
per-unit try/except (ceiling.py lines 121-135): KeyError is what the
merge of zero successful bootstrap params surfaces (caught, unit
skipped; comment at line 134); ValueError is what .min() of an empty
index array raises (uncaught); IndexError is what the final merge of
zero unit ceilings raises (uncaught). -/
inductive ExtrapErr where
  | keyError
  | valueError
  | indexError
deriving DecidableEq

/-- The per-unit Score packaged by extrapolate_neuroid (ceiling.py lines
196-204): aggregation entries center/error_low/error_high plus the
attached provenance (raw table, bootstrapped params, endpoint_x). -/
structure NeuroidScore where
  center : ℚ
  errorLow : ℚ
  errorHigh : ℚ
  bootstrappedParams : List (ℕ × ℚ × ℚ)
  endpointX : ℕ
  raw : NeuroidCeilingTable
deriving DecidableEq

/-- extrapolate_neuroid (ceiling.py lines 164-204).  merge_data_arrays of
the empty params list raises; the source's own handler comment (line 134)
and the spec (sections 4.4 and 8) record that this surfaces as a KeyError
caught per unit, so the empty case is modelled as keyError.  An empty
np.where result makes .min() raise ValueError. -/
def extrapolateNeuroid (npExp : ℚ → ℚ) (fit : FitFn) (numBootstraps : ℕ)
    (t : NeuroidCeilingTable) : Except ExtrapErr NeuroidScore :=
  let bootstrapParams := runBootstraps fit numBootstraps t
  if bootstrapParams = [] then .error .keyError
  else
    let ys := curveYs npExp bootstrapParams
    let medianYs := medianCurve ys
    let diffs := forwardDiffs medianYs
    match endXOf diffs with
    | none => .error .valueError
    | some endX =>
      let center := medianQ (bootstrapParams.map (fun p => p.2.1))
      let error := ciError (ys.map (fun row => row.getD endX 0)) center
      .ok { center := center
            errorLow := error.1
            errorHigh := error.2
            bootstrappedParams := bootstrapParams
            endpointX := endX
            raw := t }

/-- The aggregated ceiling returned by extrapolate (ceiling.py lines
136-148 and 157-162): medians across units of center/error_low/error_high
and of the endpoint provenance, with the merged per-unit ceilings kept as
raw provenance. -/
structure AggScore where
  center : ℚ
  errorLow : ℚ
  errorHigh : ℚ
  endpointXMedian : ℚ
  perNeuroid : List (String × NeuroidScore)
deriving DecidableEq

/-- The per-unit loop of extrapolate (ceiling.py lines 120-135): each
unit's slice is extrapolated; a KeyError (no bootstrap round fitted)
skips the unit, any other error propagates. -/
def extrapolateGo (npExp : ℚ → ℚ) (fit : FitFn) (numBootstraps : ℕ) :
    List (String × NeuroidCeilingTable) →
    Except ExtrapErr (List (String × NeuroidScore))
  | [] => .ok []
  | (nid, t) :: rest =>
    match extrapolateNeuroid npExp fit numBootstraps t with
    | .ok s => (extrapolateGo npExp fit numBootstraps rest).map (fun l => (nid, s) :: l)
    | .error .keyError => extrapolateGo npExp fit numBootstraps rest
    | .error e => .error e

/-- ExtrapolationCeiling.extrapolate (ceiling.py lines 118-148): run every
unit, merge the surviving per-unit ceilings (merge of an empty element
list evaluates elements[0] and raises IndexError), and aggregate across
units by the median. -/
def extrapolate (npExp : ℚ → ℚ) (fit : FitFn) (numBootstraps : ℕ)
    (units : List (String × NeuroidCeilingTable)) : Except ExtrapErr AggScore :=
  match extrapolateGo npExp fit numBootstraps units with
  | .error e => .error e
  | .ok [] => .error .indexError
  | .ok collected =>
    .ok { center := medianQ (collected.map (fun p => p.2.center))
          errorLow := medianQ (collected.map (fun p => p.2.errorLow))
          errorHigh := medianQ (collected.map (fun p => p.2.errorHigh))
          endpointXMedian := medianQ (collected.map (fun p => (p.2.endpointX : ℚ)))
          perNeuroid := collected }

/-- extrapolate_neuroid as executed in a Python process whose ambient
numpy global generator is in state g: the body constructs its own
RandomState(0) (ceiling.py line 167) and never touches the global
generator, so g does not occur in the computation. -/
def extrapolateNeuroidEnv (_g : ℕ) (npExp : ℚ → ℚ) (fit : FitFn)
    (numBootstraps : ℕ) (t : NeuroidCeilingTable) : Except ExtrapErr NeuroidScore :=
  extrapolateNeuroid npExp fit numBootstraps t

/-! ## Derived views used by the theorems -/

/-- The subject subsets enumerated by iterate_subsets for one size. -/
def enumeratedSubsets (a : Assembly α) (k : ℕ) : List (List String) :=
  (iterateSubsets a k).map Prod.fst

/-- In how many of the given subsets a subject appears. -/
def countContaining (subsets : List (List String)) (x : String) : ℕ :=
  subsets.countP (fun c => decide (x ∈ c))

/-! ## Concrete fixtures used by witnesses and counterexamples -/

/-- A constant metric: score 0.5 with zero error for any pool/heldout
pair, raw per-split values attached. -/
def cmConst : Metric Unit := fun _ _ =>
  .ok { center := 1 / 2, error := 0
        raw := { dims := ["neuroid", "split"], values := [("n0", [1 / 2, 1 / 2])] } }

/-- Four subjects A, B, C, D with one measurement row each. -/
def asmABCD : Assembly Unit := ⟨[("A", ()), ("B", ()), ("C", ()), ("D", ())]⟩

/-- Two subjects A, B. -/
def asmAB : Assembly Unit := ⟨[("A", ()), ("B", ())]⟩

/-- A metric that raises NoOverlapException when B is held out, a
degenerate-array ValueError when C is held out, and succeeds otherwise. -/
def cmMixed : Metric Unit := fun _ held =>
  match held.rows with
  | ("B", _) :: _ => .error .noOverlap
  | ("C", _) :: _ => .error (.valueError "Found array with 0 sample(s)")
  | _ => .ok { center := 1 / 2, error := 0
               raw := { dims := ["neuroid", "split"], values := [("n0", [1 / 2])] } }

/-- A metric that raises an unrelated ValueError when B is held out. -/
def cmFatal : Metric Unit := fun _ held =>
  match held.rows with
  | ("B", _) :: _ => .error (.valueError "shapes do not align")
  | _ => .ok { center := 1 / 2, error := 0
               raw := { dims := ["neuroid", "split"], values := [("n0", [1 / 2])] } }

/-- A metric that raises NoOverlapException for every subject. -/
def cmAllSkip : Metric Unit := fun _ _ => .error .noOverlap

/-- A two-point sample list 0, 10: its qth linear-interpolation
percentile is q/10, so the 2.5th, 97.5th and 99.975th percentiles are
0.25, 9.75 and 9.9975. -/
def samplesTwo : List ℚ := [0, 10]

/-- An np.exp stand-in that is constant 1/2 (its values are irrelevant to
the claims being exercised). -/
def expHalf : ℚ → ℚ := fun _ => 1 / 2

/-- An np.exp stand-in with expLin (-x) = 1 - x, making the fitted curve
v0 * x / tau0 grow linearly without saturating. -/
def expLin : ℚ → ℚ := fun q => 1 + q

/-- A fitter that always converges to v0 = 1/2, tau0 = 1. -/
def fitConstHalf : FitFn := fun _ _ => some (1 / 2, 1)

/-- A fitter that always converges to v0 = 3/5, tau0 = 2. -/
def fitConst35 : FitFn := fun _ _ => some (3 / 5, 2)

/-- A fitter that always converges to v0 = 1, tau0 = 1. -/
def fitConstOne : FitFn := fun _ _ => some (1, 1)

/-- A fitter that fails to converge whenever only one num_subjects level
is available and converges otherwise (the sparse-unit situation of spec
section 8). -/
def fitNeedsTwo : FitFn := fun ks _ => if 2 ≤ ks.length then some (1 / 2, 1) else none

/-- A one-level per-unit table: num_subjects = 2 with a single subset and
a single split value. -/
def tblOneLevel : NeuroidCeilingTable := ⟨[(2, [some [1 / 2]])]⟩

/-- A two-level per-unit table. -/
def tblTwoLevel : NeuroidCeilingTable := ⟨[(2, [some [1 / 2]]), (3, [some [1 / 2]])]⟩

/-- A one-level table used by the endpoint witness. -/
def tblLevelThree : NeuroidCeilingTable := ⟨[(3, [some [1 / 3]])]⟩

/-- The per-unit Score that the two-level table extrapolates to under
fitNeedsTwo and expHalf. -/
def nsU2 : NeuroidScore :=
  { center := 1 / 2, errorLow := 1 / 4, errorHigh := -(1 / 4)
    bootstrappedParams := [(0, (1 / 2, 1)), (1, (1 / 2, 1))]
    endpointX := 0, raw := tblTwoLevel }

/-- The aggregate ceiling over the single surviving unit u2. -/
def aggU2 : AggScore :=
  { center := 1 / 2, errorLow := 1 / 4, errorHigh := -(1 / 4)
    endpointXMedian := 0, perNeuroid := [("u2", nsU2)] }

/-! ## Characterization of the holdout loop -/

theorem collectSubjectScores_ok (metric : Metric α) (a : Assembly α) :
    ∀ (subs : List String) (l : List (String × MetricScore)),
    collectSubjectScores metric a subs = .ok l →
    l = subs.filterMap (successOf metric a) := by
  intro subs
  induction subs with
  | nil =>
    intro l h
    simp only [collectSubjectScores, Except.ok.injEq] at h
    simp [← h]
  | cons subject rest ih =>
    intro l h
    simp only [collectSubjectScores] at h
    cases ho : outcomeOf metric a subject with
    | ok sc =>
      rw [ho] at h
      cases hr : collectSubjectScores metric a rest with
      | ok l' =>
        rw [hr] at h
        simp only [Except.map, Except.ok.injEq] at h
        simp [← h, List.filterMap_cons, successOf, ho, ih l' hr]
      | error e => rw [hr] at h; simp [Except.map] at h
    | error e =>
      rw [ho] at h
      simp only [] at h
      cases hf : fatalOf e with
      | none =>
        rw [hf] at h
        simp [List.filterMap_cons, successOf, ho, ih l h]
      | some he => rw [hf] at h; cases h

theorem collectSubjectScores_total (metric : Metric α) (a : Assembly α) :
    ∀ (subs : List String), (∀ x ∈ subs, nonFatalB metric a x = true) →
    collectSubjectScores metric a subs = .ok (subs.filterMap (successOf metric a)) := by
  intro subs
  induction subs with
  | nil => intro _; simp [collectSubjectScores]
  | cons subject rest ih =>
    intro hnf
    have hhead := hnf subject (by simp)
    have htail := ih (fun x hx => hnf x (by simp [hx]))
    simp only [collectSubjectScores]
    cases ho : outcomeOf metric a subject with
    | ok sc => simp [htail, Except.map, List.filterMap_cons, successOf, ho]
    | error e =>
      cases hf : fatalOf e with
      | none => simp [htail, List.filterMap_cons, successOf, ho, hf]
      | some he =>
        exfalso
        simp only [nonFatalB, ho, hf, Option.isNone] at hhead
        cases hhead

theorem collectSubjectScores_fatal (metric : Metric α) (a : Assembly α) :
    ∀ (pre : List String) (x : String) (post : List String) (e : MetricErr)
      (he : HoldoutErr),
    (∀ y ∈ pre, nonFatalB metric a y = true) →
    outcomeOf metric a x = .error e → fatalOf e = some he →
    collectSubjectScores metric a (pre ++ x :: post) = .error he := by
  intro pre
  induction pre with
  | nil =>
    intro x post e he _ ho hf
    simp [collectSubjectScores, ho, hf]
  | cons y pre' ih =>
    intro x post e he hnf ho hf
    have hy := hnf y (by simp)
    have hrest := ih x post e he (fun z hz => hnf z (by simp [hz])) ho hf
    simp only [List.cons_append, collectSubjectScores]
    cases hoy : outcomeOf metric a y with
    | ok sc => simp [hrest, Except.map]
    | error ey =>
      cases hfy : fatalOf ey with
      | none => simp [hrest, hfy]
      | some hey =>
        exfalso
        simp only [nonFatalB, hoy, hfy, Option.isNone] at hy
        cases hy

theorem holdoutCall_ok_spec (metric : Metric α) (a : Assembly α) (s : HoldoutScore)
    (h : holdoutCall metric a = .ok s) :
    successes metric a ≠ [] ∧
    s.center = meanQ ((successes metric a).map (fun p => p.2.center)) ∧
    s.error = stdQ ((successes metric a).map (fun p => p.2.center)) ∧
    s.subjectScores = (successes metric a).map (fun p => (p.1, p.2.center, p.2.error)) ∧
    s.raw.values = (successes metric a).foldr (fun p acc => p.2.raw.values ++ acc) [] ∧
    (∀ p rest, successes metric a = p :: rest → s.raw.dims = p.2.raw.dims) := by
  unfold holdoutCall at h
  cases hc : collectSubjectScores metric a (subjectsOf a) with
  | error e => rw [hc] at h; cases h
  | ok l =>
    rw [hc] at h
    have hl : l = successes metric a := collectSubjectScores_ok metric a _ l hc
    cases l with
    | nil => cases h
    | cons s₀ r =>
      simp only [Except.ok.injEq] at h
      refine ⟨by rw [← hl]; simp, ?_, ?_, ?_, ?_, ?_⟩
      · rw [← h, ← hl]
      · rw [← h, ← hl]
      · rw [← h, ← hl]
      · rw [← h, ← hl]
      · intro p rest hsucc
        rw [← hl] at hsucc
        cases hsucc
        rw [← h]

theorem mem_successes_outcome (metric : Metric α) (a : Assembly α)
    (p : String × MetricScore) (hp : p ∈ successes metric a) :
    outcomeOf metric a p.1 = .ok p.2 := by
  unfold successes at hp
  obtain ⟨subject, _, hs⟩ := List.mem_filterMap.mp hp
  unfold successOf at hs
  cases ho : outcomeOf metric a subject with
  | ok sc => rw [ho] at hs; cases hs; exact ho
  | error e => rw [ho] at hs; cases hs

theorem holdoutCall_total_ok (metric : Metric α) (a : Assembly α)
    (hnf : ∀ x ∈ subjectsOf a, nonFatalB metric a x = true)
    (hne : successes metric a ≠ []) :
    ∃ s, holdoutCall metric a = .ok s ∧
      s.center = meanQ ((successes metric a).map (fun p => p.2.center)) ∧
      s.error = stdQ ((successes metric a).map (fun p => p.2.center)) ∧
      s.subjectScores = (successes metric a).map (fun p => (p.1, p.2.center, p.2.error)) := by
  have hc := collectSubjectScores_total metric a (subjectsOf a) hnf
  have hfm : (subjectsOf a).filterMap (successOf metric a) = successes metric a := rfl
  rw [hfm] at hc
  cases hsucc : successes metric a with
  | nil => exact absurd hsucc hne
  | cons p rest =>
    rw [hsucc] at hc
    refine ⟨{ center := meanQ ((p :: rest).map (fun q => q.2.center))
              error := stdQ ((p :: rest).map (fun q => q.2.center))
              subjectScores := (p :: rest).map (fun q => (q.1, q.2.center, q.2.error))
              raw := { dims := p.2.raw.dims
                       values := (p :: rest).foldr (fun q acc => q.2.raw.values ++ acc) [] } },
           ?_, by simp [hsucc], by simp [hsucc], by simp [hsucc]⟩
    unfold holdoutCall
    rw [hc]

/-- C4: for every pool on which every subject's metric outcome is
non-fatal and at least one subject yields a usable score,
HoldoutSubjectCeiling returns a Score whose error is the standard
deviation of the per-subject center values (computed from the per-subject
table before the subject axis is collapsed) and whose center is the mean
of the per-subject center values, with one per-subject entry per usable
subject. -/
theorem c4_holdout_mean_std (metric : Metric α) (a : Assembly α)
    (hnf : ∀ x ∈ subjectsOf a, nonFatalB metric a x = true)
    (hne : successes metric a ≠ []) :
    ∃ s, holdoutCall metric a = .ok s ∧
      s.center = meanQ ((successes metric a).map (fun p => p.2.center)) ∧
      s.error = stdQ ((successes metric a).map (fun p => p.2.center)) ∧
      s.subjectScores = (successes metric a).map (fun p => (p.1, p.2.center, p.2.error)) :=
  holdoutCall_total_ok metric a hnf hne

/-- C4 witness: subjects A, B, C, D with a constant metric returning 0.5
everywhere give a four-entry per-subject table of 0.5 each, center 0.5
and error 0. -/
theorem c4_witness :
    (∀ x ∈ subjectsOf asmABCD, nonFatalB cmConst asmABCD x = true) ∧
    successes cmConst asmABCD ≠ [] ∧
    (∃ s, holdoutCall cmConst asmABCD = .ok s ∧
      s.center = meanQ ((successes cmConst asmABCD).map (fun p => p.2.center)) ∧
      s.error = stdQ ((successes cmConst asmABCD).map (fun p => p.2.center)) ∧
      s.subjectScores = (successes cmConst asmABCD).map (fun p => (p.1, p.2.center, p.2.error))) ∧
    holdoutCall cmConst asmABCD =
      .ok { center := 1 / 2, error := 0
            subjectScores :=
              [("A", 1 / 2, 0), ("B", 1 / 2, 0), ("C", 1 / 2, 0), ("D", 1 / 2, 0)]
            raw := { dims := ["neuroid", "split"]
                     values := [("n0", [1 / 2, 1 / 2]), ("n0", [1 / 2, 1 / 2]),
                                ("n0", [1 / 2, 1 / 2]), ("n0", [1 / 2, 1 / 2])] } } :=
  ⟨by with_unfolding_all decide, by with_unfolding_all decide,
   c4_holdout_mean_std cmConst asmABCD (by with_unfolding_all decide)
     (by with_unfolding_all decide),
   by with_unfolding_all rfl⟩

/-- C5: in HoldoutSubjectCeiling, (i) when every subject's outcome is
non-fatal (success, NoOverlapException, or a "Found array with"
ValueError) and at least one succeeds, the skippable subjects are dropped
while the loop continues over the rest, whose scores all appear; (ii) a
non-swallowed error raised for a subject propagates to the caller; (iii)
when zero subjects yield a usable score, the merge of the empty score
list raises instead of returning a Score. -/
theorem c5_error_policy (metric : Metric α) (a : Assembly α) :
    ((∀ x ∈ subjectsOf a, nonFatalB metric a x = true) →
      successes metric a ≠ [] →
      ∃ s, holdoutCall metric a = .ok s ∧
        s.subjectScores = (successes metric a).map (fun p => (p.1, p.2.center, p.2.error)))
    ∧
    (∀ (pre : List String) (x : String) (post : List String) (e : MetricErr)
       (he : HoldoutErr),
      subjectsOf a = pre ++ x :: post →
      (∀ y ∈ pre, nonFatalB metric a y = true) →
      outcomeOf metric a x = .error e →
      fatalOf e = some he →
      holdoutCall metric a = .error he)
    ∧
    ((∀ x ∈ subjectsOf a, nonFatalB metric a x = true) →
      successes metric a = [] →
      holdoutCall metric a = .error .mergeEmpty) := by
  refine ⟨?_, ?_, ?_⟩
  · intro hnf hne
    obtain ⟨s, hs, _, _, hss⟩ := holdoutCall_total_ok metric a hnf hne
    exact ⟨s, hs, hss⟩
  · intro pre x post e he hsplit hpre ho hf
    have hc : collectSubjectScores metric a (subjectsOf a) = .error he := by
      rw [hsplit]
      exact collectSubjectScores_fatal metric a pre x post e he hpre ho hf
    unfold holdoutCall
    rw [hc]
  · intro hnf hempty
    have hc := collectSubjectScores_total metric a (subjectsOf a) hnf
    have hfm : (subjectsOf a).filterMap (successOf metric a) = successes metric a := rfl
    rw [hfm, hempty] at hc
    unfold holdoutCall
    rw [hc]

/-- C5 witness: with subjects A, B, C, D where B raises
NoOverlapException and C raises a "Found array with" ValueError, exactly
A and D are kept; with subjects A, B where B raises an unrelated
ValueError, the call propagates it; with subjects A, B and every call
raising NoOverlapException, the call raises on the empty merge. -/
theorem c5_witness :
    (∃ s, holdoutCall cmMixed asmABCD = .ok s ∧
      s.subjectScores =
        (successes cmMixed asmABCD).map (fun p => (p.1, p.2.center, p.2.error))) ∧
    holdoutCall cmMixed asmABCD =
      .ok { center := 1 / 2, error := 0
            subjectScores := [("A", 1 / 2, 0), ("D", 1 / 2, 0)]
            raw := { dims := ["neuroid", "split"]
                     values := [("n0", [1 / 2]), ("n0", [1 / 2])] } } ∧
    holdoutCall cmFatal asmAB = .error (.valueError "shapes do not align") ∧
    holdoutCall cmAllSkip asmAB = .error .mergeEmpty := by
  refine ⟨(c5_error_policy cmMixed asmABCD).1 (by with_unfolding_all decide)
            (by with_unfolding_all decide),
          by with_unfolding_all rfl, ?_, ?_⟩
  · exact (c5_error_policy cmFatal asmAB).2.1 ["A"] "B" [] (.valueError "shapes do not align")
      (.valueError "shapes do not align") (by with_unfolding_all rfl)
      (by with_unfolding_all decide) (by with_unfolding_all rfl) (by with_unfolding_all rfl)
  · exact (c5_error_policy cmAllSkip asmAB).2.2 (by with_unfolding_all decide)
      (by with_unfolding_all rfl)

/-! ## Characterization of the endpoint search and the bootstrap loop -/

theorem firstWhere_some_spec (p : α → Bool) (d : α) :
    ∀ (l : List α) (i : ℕ), firstWhere p l = some i →
      i < l.length ∧ p (l.getD i d) = true ∧ ∀ j < i, p (l.getD j d) = false := by
  intro l
  induction l with
  | nil => intro i h; cases h
  | cons x xs ih =>
    intro i h
    simp only [firstWhere] at h
    by_cases hx : p x
    · rw [if_pos hx] at h
      cases h
      exact ⟨by simp, by simpa using hx, by omega⟩
    · rw [if_neg hx] at h
      cases hfw : firstWhere p xs with
      | none => rw [hfw] at h; cases h
      | some i' =>
        rw [hfw] at h
        simp only [Option.map] at h
        cases h
        obtain ⟨h1, h2, h3⟩ := ih i' hfw
        refine ⟨by simpa using h1, by simpa using h2, ?_⟩
        intro j hj
        cases j with
        | zero => simpa using hx
        | succ j' => simpa using h3 j' (by omega)

theorem firstWhere_none_of_all (p : α → Bool) :
    ∀ (l : List α), (∀ x ∈ l, p x = false) → firstWhere p l = none := by
  intro l
  induction l with
  | nil => intro _; rfl
  | cons x xs ih =>
    intro hall
    simp only [firstWhere]
    rw [if_neg (by simp [hall x (by simp)])]
    rw [ih (fun y hy => hall y (by simp [hy]))]
    rfl

theorem getD_range_map (f : ℕ → ℚ) (n j : ℕ) (d : ℚ) (h : j < n) :
    ((List.range n).map f).getD j d = f j := by
  rw [List.getD_eq_getElem?_getD, List.getElem?_map, List.getElem?_range h]
  rfl

theorem runBootstraps_nil (fit : FitFn) (nb : ℕ) (t : NeuroidCeilingTable)
    (hf : ∀ bs, fit (numSubjectsLevels t) bs = none) :
    runBootstraps fit nb t = [] := by
  unfold runBootstraps
  suffices h : ∀ (rounds : List ℕ) (st : List (ℕ × ℚ × ℚ) × RandomState),
      ((rounds.foldl
        (fun (acc : List (ℕ × ℚ × ℚ) × RandomState) b =>
          let p := drawRound t (numSubjectsLevels t) acc.2
          match fit (numSubjectsLevels t) p.1 with
          | some params => (acc.1 ++ [(b, params)], p.2)
          | none => (acc.1, p.2))
        st).1 = st.1) by
    exact h (List.range nb) ([], RandomState.seeded 0)
  intro rounds
  induction rounds with
  | nil => intro st; rfl
  | cons r rs ih =>
    intro st
    simp only [List.foldl_cons]
    rw [ih]
    simp [hf]

theorem extrapolateNeuroid_fit_fail (npExp : ℚ → ℚ) (fit : FitFn) (nb : ℕ)
    (t : NeuroidCeilingTable) (hf : ∀ bs, fit (numSubjectsLevels t) bs = none) :
    extrapolateNeuroid npExp fit nb t = .error .keyError := by
  simp [extrapolateNeuroid, runBootstraps_nil fit nb t hf]

theorem extrapolateNeuroid_ok_spec (npExp : ℚ → ℚ) (fit : FitFn) (nb : ℕ)
    (t : NeuroidCeilingTable) (s : NeuroidScore)
    (h : extrapolateNeuroid npExp fit nb t = .ok s) :
    s.bootstrappedParams = runBootstraps fit nb t ∧
    s.raw = t ∧
    endXOf (forwardDiffs (medianCurve (curveYs npExp s.bootstrappedParams)))
      = some s.endpointX ∧
    s.center = medianQ (s.bootstrappedParams.map (fun p => p.2.1)) ∧
    s.errorLow = (ciError ((curveYs npExp s.bootstrappedParams).map
      (fun row => row.getD s.endpointX 0)) s.center).1 ∧
    s.errorHigh = (ciError ((curveYs npExp s.bootstrappedParams).map
      (fun row => row.getD s.endpointX 0)) s.center).2 := by
  simp only [extrapolateNeuroid] at h
  split at h
  · cases h
  · split at h
    · cases h
    · cases h
      refine ⟨rfl, rfl, ?_, rfl, ?_, ?_⟩
      · assumption
      · rfl
      · rfl

theorem extrapolateNeuroid_no_endpoint (npExp : ℚ → ℚ) (fit : FitFn) (nb : ℕ)
    (t : NeuroidCeilingTable)
    (hbp : runBootstraps fit nb t ≠ [])
    (hdiff : ∀ d ∈ forwardDiffs (medianCurve (curveYs npExp (runBootstraps fit nb t))),
      ¬ d < asymptoteThreshold) :
    extrapolateNeuroid npExp fit nb t = .error .valueError := by
  have hend : endXOf (forwardDiffs (medianCurve (curveYs npExp (runBootstraps fit nb t))))
      = none := by
    apply firstWhere_none_of_all
    intro x hx
    simpa using hdiff x hx
  simp [extrapolateNeuroid, if_neg hbp, hend]

theorem extrapolateGo_skip (npExp : ℚ → ℚ) (fit : FitFn) (nb : ℕ)
    (uid : String) (ut : NeuroidCeilingTable)
    (post : List (String × NeuroidCeilingTable))
    (hu : extrapolateNeuroid npExp fit nb ut = .error .keyError) :
    ∀ (pre : List (String × NeuroidCeilingTable)),
      extrapolateGo npExp fit nb (pre ++ (uid, ut) :: post)
        = extrapolateGo npExp fit nb (pre ++ post) := by
  intro pre
  induction pre with
  | nil => simp [extrapolateGo, hu]
  | cons u us ih =>
    cases hx : extrapolateNeuroid npExp fit nb u.2 with
    | ok s => simp [extrapolateGo, hx, ih]
    | error e => cases e <;> simp [extrapolateGo, hx, ih]

theorem extrapolateGo_ids (npExp : ℚ → ℚ) (fit : FitFn) (nb : ℕ) :
    ∀ (units : List (String × NeuroidCeilingTable)) (l : List (String × NeuroidScore)),
      extrapolateGo npExp fit nb units = .ok l →
      ∀ nid ∈ l.map Prod.fst, nid ∈ units.map Prod.fst := by
  intro units
  induction units with
  | nil =>
    intro l h
    simp only [extrapolateGo, Except.ok.injEq] at h
    simp [← h]
  | cons u us ih =>
    intro l h
    simp only [extrapolateGo] at h
    cases hx : extrapolateNeuroid npExp fit nb u.2 with
    | ok s =>
      rw [hx] at h
      simp only [] at h
      cases hr : extrapolateGo npExp fit nb us with
      | ok l' =>
        rw [hr] at h
        simp only [Except.map, Except.ok.injEq] at h
        intro nid hnid
        rw [← h] at hnid
        simp only [List.map_cons, List.mem_cons] at hnid
        rcases hnid with h1 | h2
        · simp [h1]
        · simp [ih l' hr nid h2]
      | error e => rw [hr] at h; simp [Except.map] at h
    | error e =>
      rw [hx] at h
      cases e with
      | keyError =>
        simp only [] at h
        intro nid hnid
        simp [ih l h nid hnid]
      | valueError => simp at h
      | indexError => simp at h

theorem extrapolate_ok_perNeuroid (npExp : ℚ → ℚ) (fit : FitFn) (nb : ℕ)
    (units : List (String × NeuroidCeilingTable)) (r : AggScore)
    (h : extrapolate npExp fit nb units = .ok r) :
    extrapolateGo npExp fit nb units = .ok r.perNeuroid := by
  unfold extrapolate at h
  cases hg : extrapolateGo npExp fit nb units with
  | error e => rw [hg] at h; cases h
  | ok collected =>
    rw [hg] at h
    cases collected with
    | nil => cases h
    | cons c cs => cases h; rfl

theorem extrapolateGo_error_after_ok (npExp : ℚ → ℚ) (fit : FitFn) (nb : ℕ)
    (uid : String) (ut : NeuroidCeilingTable)
    (post : List (String × NeuroidCeilingTable))
    (hu : extrapolateNeuroid npExp fit nb ut = .error .valueError) :
    ∀ (pre : List (String × NeuroidCeilingTable)) (l : List (String × NeuroidScore)),
      extrapolateGo npExp fit nb pre = .ok l →
      extrapolateGo npExp fit nb (pre ++ (uid, ut) :: post) = .error .valueError := by
  intro pre
  induction pre with
  | nil => intro l _; simp [extrapolateGo, hu]
  | cons u us ih =>
    intro l h
    simp only [extrapolateGo] at h
    cases hx : extrapolateNeuroid npExp fit nb u.2 with
    | ok s =>
      rw [hx] at h
      simp only [] at h
      cases hr : extrapolateGo npExp fit nb us with
      | ok l' => simp [extrapolateGo, hx, ih l' hr, Except.map]
      | error e => rw [hr] at h; simp [Except.map] at h
    | error e =>
      rw [hx] at h
      cases e with
      | keyError =>
        simp only [] at h
        simp [extrapolateGo, hx, ih l h]
      | valueError => simp at h
      | indexError => simp at h

/-- C1: ci_error with confidence 0.95 returns low as the distance from
center down to the 2.5th percentile, but high as the distance up to the
99.975th percentile, not the 97.5th: on samples [0, 10] (whose qth
percentile is q/10) and center 200 it returns
(200 - 0.25, 9.9975 - 200), while the claimed distance up to the 97.5th
percentile would be 9.75 - 200, which differs. -/
theorem c1_ciError_upper_percentile :
    ciError samplesTwo 200 = (200 - 1 / 4, 3999 / 400 - 200) ∧
    percentileQ samplesTwo (5 / 2) = 1 / 4 ∧
    percentileQ samplesTwo (975 / 10) = 39 / 4 ∧
    (ciError samplesTwo 200).2 ≠ percentileQ samplesTwo (975 / 10) - 200 := by
  have h1 : ciError samplesTwo 200 = (200 - 1 / 4, 3999 / 400 - 200) := by
    with_unfolding_all rfl
  have h2 : percentileQ samplesTwo (975 / 10) = 39 / 4 := by
    with_unfolding_all rfl
  refine ⟨h1, by with_unfolding_all rfl, h2, ?_⟩
  rw [h2, h1]
  norm_num

/-- C2 counterexample: a per-unit extrapolation whose packaged error_high
is negative: with a constant fitter (v0 = 1/2, tau0 = 1), a constant
np.exp stand-in 1/2, two bootstrap rounds and a one-level table, every
curve value at the endpoint is 1/4 while center = 1/2, so
error_high = 1/4 - 1/2 = -1/4 < 0, refuting "non-negative for every
input". -/
theorem c2_counterexample :
    (extrapolateNeuroid expHalf fitConstHalf 2 tblOneLevel).map NeuroidScore.errorHigh
      = .ok (-(1 / 4)) ∧ ((-(1 / 4) : ℚ) < 0) :=
  ⟨by with_unfolding_all rfl, by with_unfolding_all decide⟩

/-- C2 (amended): the error_low and error_high packaged into the returned
Score are the signed distances from center to the lower and upper
percentile of the per-round curve values at the endpoint x
(error_low = center - P_2.5, error_high = P_99.975 - center, the
percentile ranks the code computes), not absolute distances, so they can
be negative when a percentile falls on the same side as center. -/
theorem c2_signed_ci_error (npExp : ℚ → ℚ) (fit : FitFn) (nb : ℕ)
    (t : NeuroidCeilingTable) (s : NeuroidScore)
    (h : extrapolateNeuroid npExp fit nb t = .ok s) :
    s.errorLow = s.center - percentileQ ((curveYs npExp s.bootstrappedParams).map
      (fun row => row.getD s.endpointX 0)) (5 / 2) ∧
    s.errorHigh = percentileQ ((curveYs npExp s.bootstrappedParams).map
      (fun row => row.getD s.endpointX 0)) (3999 / 40) - s.center ∧
    s.center = medianQ (s.bootstrappedParams.map (fun p => p.2.1)) := by
  obtain ⟨_, _, _, hcen, hlow, hhigh⟩ :=
    extrapolateNeuroid_ok_spec npExp fit nb t s h
  have e1 : (100 : ℚ) * (1 - 95 / 100) / 2 = 5 / 2 := by norm_num
  have e2 : (100 : ℚ) * 1 - ((1 - 95 / 100) / 2) = 3999 / 40 := by norm_num
  refine ⟨?_, ?_, hcen⟩
  · rw [hlow]; simp only [ciError]; rw [e1]
  · rw [hhigh]; simp only [ciError]; rw [e2]

/-- C2 witness for the amended claim: a concrete successful extrapolation
(constant fitter v0 = 3/5, tau0 = 2) whose packaged errors are the signed
percentile distances, error_high again negative. -/
theorem c2_signed_ci_error_witness :
    extrapolateNeuroid expHalf fitConst35 2 tblOneLevel =
      .ok { center := 3 / 5, errorLow := 3 / 10, errorHigh := -(3 / 10)
            bootstrappedParams := [(0, (3 / 5, 2)), (1, (3 / 5, 2))]
            endpointX := 0, raw := tblOneLevel } ∧
    ((3 : ℚ) / 10 = 3 / 5 - percentileQ
      ((curveYs expHalf [(0, (3 / 5, 2)), (1, (3 / 5, 2))]).map
        (fun row => row.getD 0 0)) (5 / 2)) ∧
    ((-(3 / 10) : ℚ) = percentileQ
      ((curveYs expHalf [(0, (3 / 5, 2)), (1, (3 / 5, 2))]).map
        (fun row => row.getD 0 0)) (3999 / 40) - 3 / 5) ∧
    ((3 : ℚ) / 5 = medianQ ([(0, ((3 : ℚ) / 5, (2 : ℚ))), (1, (3 / 5, 2))].map
      (fun p => p.2.1))) := by
  have hok : extrapolateNeuroid expHalf fitConst35 2 tblOneLevel =
      .ok { center := 3 / 5, errorLow := 3 / 10, errorHigh := -(3 / 10)
            bootstrappedParams := [(0, (3 / 5, 2)), (1, (3 / 5, 2))]
            endpointX := 0, raw := tblOneLevel } := by
    with_unfolding_all rfl
  have h := c2_signed_ci_error expHalf fitConst35 2 tblOneLevel _ hok
  exact ⟨hok, h.1, h.2.1, h.2.2⟩

/-- C3: when every curve fit attempted for one unit fails (as with a
single num_subjects level from only 2 subjects), the merge of zero
bootstrap params surfaces the KeyError caught by extrapolate's per-unit
handler: the unit is skipped, the result is the same as without the
unit, the unit is absent from the final aggregate, and the overall
computation completes without raising. -/
theorem c3_sparse_unit_skipped (npExp : ℚ → ℚ) (fit : FitFn) (nb : ℕ)
    (pre post : List (String × NeuroidCeilingTable)) (uid : String)
    (ut : NeuroidCeilingTable) (r : AggScore)
    (hfit : ∀ bs, fit (numSubjectsLevels ut) bs = none)
    (hrest : extrapolate npExp fit nb (pre ++ post) = .ok r)
    (hfresh : uid ∉ (pre ++ post).map Prod.fst) :
    extrapolate npExp fit nb (pre ++ (uid, ut) :: post) = .ok r ∧
    uid ∉ r.perNeuroid.map Prod.fst := by
  have hu := extrapolateNeuroid_fit_fail npExp fit nb ut hfit
  have hgo := extrapolateGo_skip npExp fit nb uid ut post hu pre
  constructor
  · unfold extrapolate
    rw [hgo]
    unfold extrapolate at hrest
    exact hrest
  · intro hmem
    have hids := extrapolateGo_ids npExp fit nb (pre ++ post) r.perNeuroid
      (extrapolate_ok_perNeuroid npExp fit nb (pre ++ post) r hrest) uid hmem
    exact hfresh hids

/-- C3 witness: unit u1 has a single num_subjects level so every fit
fails; unit u2 extrapolates fine.  The whole computation succeeds with u1
absent from the aggregate. -/
theorem c3_sparse_unit_skipped_witness :
    extrapolate expHalf fitNeedsTwo 2 ([] ++ ("u1", tblOneLevel) :: [("u2", tblTwoLevel)]) =
      .ok aggU2 ∧
    "u1" ∉ aggU2.perNeuroid.map Prod.fst :=
  c3_sparse_unit_skipped expHalf fitNeedsTwo 2 [] [("u2", tblTwoLevel)] "u1" tblOneLevel
    aggU2 (fun bs => by with_unfolding_all rfl) (by with_unfolding_all rfl)
    (by with_unfolding_all decide)

/-- C7: for every successful per-unit extrapolation, the endpoint
attached to the Score is the smallest x on the grid 0..999 at which the
forward difference of the per-x median (across bootstrap rounds) of the
fitted curves drops below the threshold 0.0005: the endpoint is below
999, its forward difference is below the threshold, and no smaller x has
a forward difference below the threshold. -/
theorem c7_endpoint_least (npExp : ℚ → ℚ) (fit : FitFn) (nb : ℕ)
    (t : NeuroidCeilingTable) (s : NeuroidScore)
    (h : extrapolateNeuroid npExp fit nb t = .ok s) :
    s.endpointX < 999 ∧
    medianDiff (medianCurve (curveYs npExp s.bootstrappedParams)) s.endpointX
      < asymptoteThreshold ∧
    ∀ j < s.endpointX,
      ¬ medianDiff (medianCurve (curveYs npExp s.bootstrappedParams)) j
          < asymptoteThreshold := by
  obtain ⟨_, _, hend, _, _, _⟩ := extrapolateNeuroid_ok_spec npExp fit nb t s h
  unfold endXOf at hend
  obtain ⟨h1, h2, h3⟩ := firstWhere_some_spec _ 0 _ _ hend
  have hlen : (forwardDiffs (medianCurve (curveYs npExp s.bootstrappedParams))).length
      = 999 := by simp [forwardDiffs]
  rw [hlen] at h1
  refine ⟨h1, ?_, ?_⟩
  · have := h2
    rw [forwardDiffs, getD_range_map _ 999 s.endpointX 0 h1] at this
    simpa using this
  · intro j hj
    have hj999 : j < 999 := by omega
    have := h3 j hj
    rw [forwardDiffs, getD_range_map _ 999 j 0 hj999] at this
    simpa using this

/-- C7 witness: a concrete successful extrapolation (constant fitted
curve) whose endpoint is x = 0, trivially the least grid point whose
forward difference is below the threshold. -/
theorem c7_endpoint_least_witness :
    extrapolateNeuroid expHalf fitConst35 1 tblLevelThree =
      .ok { center := 3 / 5, errorLow := 3 / 10, errorHigh := -(3 / 10)
            bootstrappedParams := [(0, (3 / 5, 2))]
            endpointX := 0, raw := tblLevelThree } ∧
    ((0 : ℕ) < 999 ∧
     medianDiff (medianCurve (curveYs expHalf [(0, (3 / 5, 2))])) 0
       < asymptoteThreshold ∧
     ∀ j < (0 : ℕ),
       ¬ medianDiff (medianCurve (curveYs expHalf [(0, (3 / 5, 2))])) j
           < asymptoteThreshold) := by
  have hok : extrapolateNeuroid expHalf fitConst35 1 tblLevelThree =
      .ok { center := 3 / 5, errorLow := 3 / 10, errorHigh := -(3 / 10)
            bootstrappedParams := [(0, (3 / 5, 2))]
            endpointX := 0, raw := tblLevelThree } := by
    with_unfolding_all rfl
  exact ⟨hok, c7_endpoint_least expHalf fitConst35 1 tblLevelThree _ hok⟩

/-- C8: extrapolate_neuroid is deterministic and independent of the
ambient global generator: run in two processes with arbitrary global
generator states on equal per-unit tables, it seeds its own
RandomState(0) at the start, so both runs produce identical bootstrap
draws and identical output Scores. -/
theorem c8_deterministic (g₁ g₂ : ℕ) (npExp : ℚ → ℚ) (fit : FitFn) (nb : ℕ)
    (t₁ t₂ : NeuroidCeilingTable) (h : t₁ = t₂) :
    extrapolateNeuroidEnv g₁ npExp fit nb t₁ = extrapolateNeuroidEnv g₂ npExp fit nb t₂ := by
  subst h
  rfl

/-- C8 witness: two runs with different ambient generator states on the
same table coincide. -/
theorem c8_deterministic_witness :
    extrapolateNeuroidEnv 17 expHalf fitConstHalf 2 tblOneLevel =
      extrapolateNeuroidEnv 42 expHalf fitConstHalf 2 tblOneLevel :=
  c8_deterministic 17 42 expHalf fitConstHalf 2 tblOneLevel tblOneLevel rfl

/-- C10: if for some unit at least one bootstrap round fits but no
forward difference of the median curve over the grid falls below the
threshold, the endpoint search reduces an empty index array: .min()
raises ValueError, which extrapolate's per-unit KeyError handler does not
catch, so the whole computation aborts instead of skipping the unit. -/
theorem c10_no_endpoint_aborts (npExp : ℚ → ℚ) (fit : FitFn) (nb : ℕ)
    (pre post : List (String × NeuroidCeilingTable)) (uid : String)
    (ut : NeuroidCeilingTable) (l : List (String × NeuroidScore))
    (hbp : runBootstraps fit nb ut ≠ [])
    (hdiff : ∀ d ∈ forwardDiffs (medianCurve (curveYs npExp (runBootstraps fit nb ut))),
      ¬ d < asymptoteThreshold)
    (hpre : extrapolateGo npExp fit nb pre = .ok l) :
    extrapolateNeuroid npExp fit nb ut = .error .valueError ∧
    extrapolate npExp fit nb (pre ++ (uid, ut) :: post) = .error .valueError := by
  have hu := extrapolateNeuroid_no_endpoint npExp fit nb ut hbp hdiff
  refine ⟨hu, ?_⟩
  have hgo := extrapolateGo_error_after_ok npExp fit nb uid ut post hu pre l hpre
  unfold extrapolate
  rw [hgo]

theorem medianQ_singleton (x : ℚ) : medianQ [x] = x := by
  simp [medianQ, sortQ, insertAsc]

theorem v_expLin (x : ℚ) : v expLin x 1 1 = x := by
  simp [v, expLin]

theorem medianCurve_expLin_unit :
    medianCurve (curveYs expLin [(0, (1, 1))]) =
      (List.range 1000).map (fun (i : ℕ) => (i : ℚ)) := by
  unfold medianCurve curveYs
  apply List.map_congr_left
  intro i hi
  have hi' : i < 1000 := List.mem_range.mp hi
  simp only [List.map_cons, List.map_nil]
  rw [medianQ_singleton, getD_range_map _ 1000 i 0 hi', v_expLin]

/-- C10 witness: a fitter converging to v0 = 1, tau0 = 1 with a linear
np.exp stand-in makes the median curve grow by 1 at every grid step, so
no difference is below the threshold and the whole computation aborts
with the uncaught ValueError. -/
theorem c10_no_endpoint_aborts_witness :
    extrapolateNeuroid expLin fitConstOne 1 tblOneLevel = .error .valueError ∧
    extrapolate expLin fitConstOne 1 ([] ++ ("u", tblOneLevel) :: []) =
      .error .valueError := by
  have hbp : runBootstraps fitConstOne 1 tblOneLevel = [(0, (1, 1))] := by
    with_unfolding_all rfl
  refine c10_no_endpoint_aborts expLin fitConstOne 1 [] [] "u" tblOneLevel []
    (by rw [hbp]; intro h; cases h) ?_ (by with_unfolding_all rfl)
  intro d hd
  rw [hbp] at hd
  unfold forwardDiffs at hd
  obtain ⟨j, hj, hdj⟩ := List.mem_map.mp hd
  have hj' : j < 999 := List.mem_range.mp hj
  rw [← hdj]
  unfold medianDiff
  rw [medianCurve_expLin_unit, getD_range_map _ 1000 (j + 1) 0 (by omega),
    getD_range_map _ 1000 j 0 (by omega)]
  have hone : ((j + 1 : ℕ) : ℚ) - (j : ℕ) = 1 := by push_cast; ring
  rw [hone]
  norm_num [asymptoteThreshold]

/-! ## Counting subsets containing a fixed subject -/

theorem countP_sublistsLen_not_mem {β : Type _} [DecidableEq β] (x : β) (n : ℕ)
    (l : List β) (hx : x ∉ l) :
    (List.sublistsLen n l).countP (fun c => decide (x ∈ c)) = 0 := by
  apply List.countP_eq_zero.mpr
  intro c hc
  have hsub := (List.mem_sublistsLen.mp hc).1
  simp only [decide_eq_true_eq]
  intro hxc
  exact hx (hsub.subset hxc)

theorem countP_sublistsLen_mem {β : Type _} [DecidableEq β] (x : β) :
    ∀ (l : List β), l.Nodup → x ∈ l → ∀ (n : ℕ),
      (List.sublistsLen (n + 1) l).countP (fun c => decide (x ∈ c))
        = Nat.choose (l.length - 1) n := by
  intro l
  induction l with
  | nil => intro _ hx; cases hx
  | cons y l ih =>
    intro hnd hx n
    obtain ⟨hyl, hndl⟩ := List.nodup_cons.mp hnd
    rw [List.sublistsLen_succ_cons, List.countP_append, List.countP_map]
    by_cases hxy : x = y
    · subst hxy
      rw [countP_sublistsLen_not_mem x (n + 1) l hyl]
      have hall : ((List.sublistsLen n l).countP ((fun c => decide (x ∈ c)) ∘ List.cons x))
          = (List.sublistsLen n l).length := by
        apply List.countP_eq_length.mpr
        intro c _
        simp
      rw [hall, List.length_sublistsLen]
      simp
    · have hxl : x ∈ l := (List.mem_cons.mp hx).resolve_left hxy
      have hcomp : ((fun c => decide (x ∈ c)) ∘ List.cons y) = fun c => decide (x ∈ c) := by
        funext c
        simp [hxy]
      rw [hcomp, ih hndl hxl n]
      cases n with
      | zero =>
        rw [List.sublistsLen_zero]
        have h0 : ([([] : List β)].countP (fun c => decide (x ∈ c))) = 0 := by
          simp [List.countP_cons]
        rw [h0]
        have hlen : 1 ≤ l.length := List.length_pos.mpr (by rintro rfl; cases hxl)
        simp
      | succ m =>
        rw [ih hndl hxl m]
        obtain ⟨k, hk⟩ : ∃ k, l.length = k + 1 :=
          ⟨l.length - 1, by
            have : 1 ≤ l.length := List.length_pos.mpr (by rintro rfl; cases hxl)
            omega⟩
        simp only [List.length_cons, hk, Nat.succ_sub_one, Nat.add_sub_cancel]
        rw [Nat.choose_succ_succ]
        exact Nat.add_comm _ _

/-- C6: for a subject set of size N at least 3, the subsample-size
sequence is exactly 2, 3, ..., N (characterized by membership, without
duplicates, of length N - 1), and for each size k in it the subsampler
enumerates exactly C(N, k) mutually distinct subsets, each a size-k
subset of the subjects, with every subject appearing in the same number
of size-k subsets. -/
theorem c6_subsampler (a : Assembly α) (hN : 3 ≤ (subjectsOf a).length) :
    (∀ k, k ∈ buildSubjectSubsamples (subjectsOf a) ↔
      2 ≤ k ∧ k ≤ (subjectsOf a).length) ∧
    (buildSubjectSubsamples (subjectsOf a)).Nodup ∧
    (buildSubjectSubsamples (subjectsOf a)).length = (subjectsOf a).length - 1 ∧
    ∀ k ∈ buildSubjectSubsamples (subjectsOf a),
      (enumeratedSubsets a k).length = Nat.choose (subjectsOf a).length k ∧
      (enumeratedSubsets a k).Nodup ∧
      (∀ c ∈ enumeratedSubsets a k, c.length = k ∧ ∀ x ∈ c, x ∈ subjectsOf a) ∧
      (∀ x ∈ subjectsOf a, ∀ y ∈ subjectsOf a,
        countContaining (enumeratedSubsets a k) x
          = countContaining (enumeratedSubsets a k) y) := by
  have hnodup : (subjectsOf a).Nodup := List.nodup_dedup _
  have henum : ∀ k, enumeratedSubsets a k = List.sublistsLen k (subjectsOf a) := by
    intro k
    unfold enumeratedSubsets iterateSubsets subjectCombinations
    rw [List.map_map]
    exact List.map_id _
  refine ⟨?_, ?_, ?_, ?_⟩
  · intro k
    unfold buildSubjectSubsamples
    rw [List.mem_range'_1]
    omega
  · exact List.nodup_range' _ _
  · unfold buildSubjectSubsamples
    rw [List.length_range']
  · intro k hk
    have hk2 : 2 ≤ k ∧ k ≤ (subjectsOf a).length := by
      unfold buildSubjectSubsamples at hk
      rw [List.mem_range'_1] at hk
      omega
    refine ⟨?_, ?_, ?_, ?_⟩
    · rw [henum k, List.length_sublistsLen]
    · rw [henum k]
      exact List.nodup_sublistsLen k hnodup
    · intro c hc
      rw [henum k] at hc
      obtain ⟨hsub, hlen⟩ := List.mem_sublistsLen.mp hc
      exact ⟨hlen, fun x hx => hsub.subset hx⟩
    · intro x hx y hy
      obtain ⟨m, hm⟩ : ∃ m, k = m + 1 := ⟨k - 1, by omega⟩
      unfold countContaining
      rw [henum k, hm]
      rw [countP_sublistsLen_mem x (subjectsOf a) hnodup hx m,
        countP_sublistsLen_mem y (subjectsOf a) hnodup hy m]

/-- C6 witness: four subjects A, B, C, D; sizes are 2, 3, 4; at size 2
there are C(4,2) = 6 distinct subsets and A and D appear equally often. -/
theorem c6_subsampler_witness :
    3 ≤ (subjectsOf asmABCD).length ∧
    (2 ∈ buildSubjectSubsamples (subjectsOf asmABCD) ↔
      2 ≤ 2 ∧ 2 ≤ (subjectsOf asmABCD).length) ∧
    (enumeratedSubsets asmABCD 2).length = Nat.choose (subjectsOf asmABCD).length 2 ∧
    (enumeratedSubsets asmABCD 2).Nodup ∧
    countContaining (enumeratedSubsets asmABCD 2) "A"
      = countContaining (enumeratedSubsets asmABCD 2) "D" := by
  have h3 : 3 ≤ (subjectsOf asmABCD).length := by with_unfolding_all decide
  have h := c6_subsampler asmABCD h3
  have hk : 2 ∈ buildSubjectSubsamples (subjectsOf asmABCD) := by
    with_unfolding_all decide
  obtain ⟨h1, _, _, h4⟩ := h
  obtain ⟨ha, hb, _, hd⟩ := h4 2 hk
  exact ⟨h3, h1 2, ha, hb,
    hd "A" (by with_unfolding_all decide) "D" (by with_unfolding_all decide)⟩

/-! ## Characterization of collect -/

theorem collectGo_ok_mem (metric : Metric α) :
    ∀ (tasks : List (ℕ × List String × Assembly α)) (entries : List CollectEntry),
    collectGo metric tasks = .ok entries →
    ∀ e ∈ entries, ∃ task ∈ tasks, ∃ score,
      holdoutCall metric task.2.2 = .ok score ∧
      e = mkCollectEntry task.1 task.2.1 score := by
  intro tasks
  induction tasks with
  | nil =>
    intro entries h
    simp only [collectGo, Except.ok.injEq] at h
    intro e he
    rw [← h] at he
    cases he
  | cons task rest ih =>
    intro entries h
    obtain ⟨k, sel, sub⟩ := task
    simp only [collectGo] at h
    cases hh : holdoutCall metric sub with
    | ok score =>
      rw [hh] at h
      simp only [] at h
      cases hr : collectGo metric rest with
      | ok tail =>
        rw [hr] at h
        simp only [Except.map, Except.ok.injEq] at h
        intro e he
        rw [← h] at he
        rcases List.mem_cons.mp he with he1 | he2
        · exact ⟨(k, sel, sub), by simp, score, hh, he1⟩
        · obtain ⟨t, ht, sc, hsc, hmk⟩ := ih tail hr e he2
          exact ⟨t, by simp [ht], sc, hsc, hmk⟩
      | error er => rw [hr] at h; simp [Except.map] at h
    | error er =>
      rw [hh] at h
      cases er with
      | keyError msg =>
        simp only [] at h
        by_cases hz : msg = "'z'"
        · rw [if_pos hz] at h
          intro e he
          obtain ⟨t, ht, sc, hsc, hmk⟩ := ih entries h e he
          exact ⟨t, by simp [ht], sc, hsc, hmk⟩
        · rw [if_neg hz] at h; cases h
      | valueError msg => simp at h
      | otherError msg => simp at h
      | mergeEmpty => simp at h

/-- C9: the long table accumulated by collect is assembled from each
per-subset holdout Score's raw (pre-aggregation) provenance table, not
from its center/error aggregation: provided the metric's raw tables carry
the neuroid and split axes, every accumulated entry's axes are exactly
sub_subject, num_subjects, neuroid and split — a per-split axis and no
aggregation axis — so that removing the num_subjects and neuroid axes
leaves the {sub_subject, split} pair that extrapolate_neuroid's
assertion relies on, and the entry's values are the holdout Score's raw
values, the concatenation of the per-subject metric raw tables. -/
theorem c9_collect_raw_provenance (metric : Metric α) (a : Assembly α)
    (entries : List CollectEntry)
    (hm : ∀ pool held sc, metric pool held = .ok sc → sc.raw.dims = ["neuroid", "split"])
    (hc : collectEntries metric a = .ok entries) :
    ∀ e ∈ entries,
      e.rawDims = ["sub_subject", "num_subjects", "neuroid", "split"] ∧
      "split" ∈ e.rawDims ∧
      "aggregation" ∉ e.rawDims ∧
      e.rawDims.removeAll ["num_subjects", "neuroid"] = ["sub_subject", "split"] ∧
      ∃ (sub : Assembly α) (score : HoldoutScore),
        holdoutCall metric sub = .ok score ∧
        e.rawValues = score.raw.values ∧
        score.raw.values
          = (successes metric sub).foldr (fun p acc => p.2.raw.values ++ acc) [] := by
  intro e he
  obtain ⟨task, _, score, hok, hmk⟩ :=
    collectGo_ok_mem metric (collectTasks a) entries hc e he
  obtain ⟨hne, _, _, _, hraw, hdims⟩ := holdoutCall_ok_spec metric task.2.2 score hok
  cases hsucc : successes metric task.2.2 with
  | nil => exact absurd hsucc hne
  | cons p rest =>
    have hdims' : score.raw.dims = p.2.raw.dims := hdims p rest hsucc
    have hp : outcomeOf metric task.2.2 p.1 = .ok p.2 :=
      mem_successes_outcome metric task.2.2 p (by rw [hsucc]; simp)
    have hpd : p.2.raw.dims = ["neuroid", "split"] := hm _ _ _ hp
    have hED : e.rawDims = ["sub_subject", "num_subjects", "neuroid", "split"] := by
      rw [hmk]
      unfold mkCollectEntry
      rw [hdims', hpd]
    have hEV : e.rawValues = score.raw.values := by rw [hmk]; rfl
    refine ⟨hED, by rw [hED]; decide, by rw [hED]; decide, by rw [hED]; decide,
      task.2.2, score, hok, hEV, by rw [hraw]⟩

/-- C9 witness: two subjects with the constant metric produce exactly one
collect entry, the raw per-split table tagged with the sub_subject and
num_subjects axes and free of any aggregation axis. -/
theorem c9_collect_raw_provenance_witness :
    collectEntries cmConst asmAB =
      .ok [{ numSubjects := 2, subSubject := "A, B"
             rawDims := ["sub_subject", "num_subjects", "neuroid", "split"]
             rawValues := [("n0", [1 / 2, 1 / 2]), ("n0", [1 / 2, 1 / 2])] }] ∧
    (∀ e ∈ [({ numSubjects := 2, subSubject := "A, B"
               rawDims := ["sub_subject", "num_subjects", "neuroid", "split"]
               rawValues := [("n0", [1 / 2, 1 / 2]), ("n0", [1 / 2, 1 / 2])] } :
               CollectEntry)],
      e.rawDims = ["sub_subject", "num_subjects", "neuroid", "split"] ∧
      "split" ∈ e.rawDims ∧
      "aggregation" ∉ e.rawDims ∧
      e.rawDims.removeAll ["num_subjects", "neuroid"] = ["sub_subject", "split"] ∧
      ∃ (sub : Assembly Unit) (score : HoldoutScore),
        holdoutCall cmConst sub = .ok score ∧
        e.rawValues = score.raw.values ∧
        score.raw.values
          = (successes cmConst sub).foldr (fun p acc => p.2.raw.values ++ acc) []) := by
  have hok : collectEntries cmConst asmAB =
      .ok [{ numSubjects := 2, subSubject := "A, B"
             rawDims := ["sub_subject", "num_subjects", "neuroid", "split"]
             rawValues := [("n0", [1 / 2, 1 / 2]), ("n0", [1 / 2, 1 / 2])] }] := by
    with_unfolding_all rfl
  refine ⟨hok, c9_collect_raw_provenance cmConst asmAB _ ?_ hok⟩
  intro pool held sc h
  cases h
  rfl

example : meanQ [1, 2, 3] = 2 := by with_unfolding_all decide
example : medianQ [3, 1, 2] = 2 := by with_unfolding_all decide
example : medianQ [4, 1, 2, 3] = 5 / 2 := by with_unfolding_all decide
example : percentileQ [0, 1, 2, 3, 4] 50 = 2 := by with_unfolding_all decide
example : percentileQ [0, 10] 25 = 5 / 2 := by with_unfolding_all decide
example : stdQ [1, 1, 1] = 0 := by with_unfolding_all decide
example : ciError [0, 10] 5 = (5 - 1 / 4, 10 - 1 / 400 - 5) := by
  with_unfolding_all decide

end CeilingPy
